import Mathlib

/-!
Shallow embedding of the Monty Hall Monte Carlo notebook
(`discussion-exercise-2018-09-24.ipynb`).

The notebook builds two integer sequences (`car_under`, `picked`) over
{0,1,2}, evaluates the stay strategy by counting elementwise equalities
via `value_counts()[True]`, and evaluates the switch strategy by mapping
`change_mind` over the rows and counting equalities the same way.

Failure modes of the Python operations are made explicit with `Option`:
`list.remove` raises `ValueError` when the element is absent, list
indexing raises `IndexError` out of range, and `value_counts()[True]`
raises `KeyError` when the boolean series holds no `True` entry.
-/

/-- Python `list.remove(x)`: delete the first occurrence of `x`;
`ValueError` (modelled as `none`) when `x` is not in the list. -/
def pyRemove (l : List ℕ) (x : ℕ) : Option (List ℕ) :=
  if x ∈ l then some (l.erase x) else none

/-- Python list indexing `l[i]`; `IndexError` modelled as `none`. -/
def pyIndex (l : List ℕ) (i : ℕ) : Option ℕ :=
  l.get? i

/-- `change_mind(row)` from the notebook: starting from `options = [0,1,2]`,
remove `picked`, then remove `options[1] if options[0] == car_under else
options[0]` (the door revealed as holding a goat), and return `options[0]`. -/
def change_mind (picked car_under : ℕ) : Option ℕ := do
  let options0 := [0, 1, 2]
  let options1 ← pyRemove options0 picked
  let o0 ← pyIndex options1 0
  let goat ← if o0 = car_under then pyIndex options1 1 else pure o0
  let options2 ← pyRemove options1 goat
  pyIndex options2 0

/-- The door the host reveals in `change_mind`: the argument of the second
`options.remove`, namely `options[1] if options[0] == car_under else
options[0]` after `picked` has been removed from `[0,1,2]`. -/
def revealed_goat (picked car_under : ℕ) : Option ℕ := do
  let options1 ← pyRemove [0, 1, 2] picked
  let o0 ← pyIndex options1 0
  if o0 = car_under then pyIndex options1 1 else pure o0

/-- Pandas elementwise `==` on two equal-length series. -/
def elementwise_eq (xs ys : List ℕ) : List Bool :=
  List.zipWith (fun a b => a == b) xs ys

/-- `value_counts()[True]` on a boolean series: the number of `True`
entries; `KeyError` (modelled as `none`) when no entry is `True`, since
`value_counts` then has no `True` row to index. -/
def value_counts_true (bs : List Bool) : Option ℕ :=
  if bs.count true = 0 then none else some (bs.count true)

/-- The number of positions where the two series agree (the `True` count
of the elementwise comparison). -/
def matchCount (xs ys : List ℕ) : ℕ :=
  (elementwise_eq xs ys).count true

/-- Cell 3 of the notebook, with the trial count generalised from the
constant 10000 to the length of the series:
`num_times_we_got_the_car = (df_car['car_under'] == df_picked['picked']).value_counts()[True]`
followed by `approximate_P_staying = num_times_we_got_the_car / num_trials`. -/
def approximate_P_staying (car_under picked : List ℕ) : Option ℚ := do
  let num_times_we_got_the_car ← value_counts_true (elementwise_eq car_under picked)
  pure ((num_times_we_got_the_car : ℚ) / (car_under.length : ℚ))

/-- `df_picked.apply(change_mind, axis=1)`: `change_mind` mapped over the
rows `(picked, car_under)`; a raising row aborts the whole computation. -/
def apply_change_mind : List ℕ → List ℕ → Option (List ℕ)
  | [], _ => some []
  | _ :: _, [] => some []
  | p :: ps, c :: cs => do
    let s ← change_mind p c
    let rest ← apply_change_mind ps cs
    pure (s :: rest)

/-- Cell 4 of the notebook: build `df_changed_mind`, count the positions
where it equals `car_under` via `value_counts()[True]`, and divide by the
trial count (generalised to the length of the series). -/
def approximate_P_switching (car_under picked : List ℕ) : Option ℚ := do
  let df_changed_mind ← apply_change_mind picked car_under
  let num_times_we_got_the_car ← value_counts_true (elementwise_eq car_under df_changed_mind)
  pure ((num_times_we_got_the_car : ℚ) / (car_under.length : ℚ))

/-- Closed form of `change_mind` on the nine-point domain: the prize door
when it differs from the pick, otherwise the larger non-picked door. -/
lemma change_mind_closed (p c : ℕ) (hp : p < 3) (hc : c < 3) :
    change_mind p c = some (if c = p then (if p = 2 then 1 else 2) else c) := by
  interval_cases p <;> interval_cases c <;> decide

/-- Per-trial dichotomy: `change_mind` succeeds with a door in `{0,1,2}`
that equals the prize door exactly when the prize was not picked. -/
lemma change_mind_dichotomy (p c : ℕ) (hp : p < 3) (hc : c < 3) :
    ∃ s, change_mind p c = some s ∧ s < 3 ∧ (c = s ↔ ¬c = p) := by
  refine ⟨(change_mind p c).getD 0, ?_⟩
  interval_cases p <;> interval_cases c <;> decide

/-- `apply_change_mind` never raises on `{0,1,2}`-valued inputs of equal
length, its output stays in `{0,1,2}`, and per trial exactly one of
"staying wins" and "switching wins" holds, so the two match counts
partition the trials. -/
lemma apply_change_mind_spec :
    ∀ car picked : List ℕ, (∀ x ∈ car, x < 3) → (∀ x ∈ picked, x < 3) →
      picked.length = car.length →
      ∃ changed, apply_change_mind picked car = some changed ∧
        changed.length = car.length ∧ (∀ x ∈ changed, x < 3) ∧
        matchCount car picked + matchCount car changed = car.length
  | [], [], _, _, _ => ⟨[], rfl, rfl, by simp, rfl⟩
  | [], p :: ps, _, _, hlen => by simp at hlen
  | c :: cs, [], _, _, hlen => by simp at hlen
  | c :: cs, p :: ps, hcar, hpick, hlen => by
    obtain ⟨s, hs, hs3, hiff⟩ :=
      change_mind_dichotomy p c (hpick p (by simp)) (hcar c (by simp))
    obtain ⟨rest, hrest, hrlen, hr3, hrcount⟩ :=
      apply_change_mind_spec cs ps (fun x hx => hcar x (by simp [hx]))
        (fun x hx => hpick x (by simp [hx])) (by simpa using hlen)
    refine ⟨s :: rest, ?_, by simpa using hrlen, ?_, ?_⟩
    · simp [apply_change_mind, hs, hrest]
    · intro x hx
      rcases List.mem_cons.mp hx with h | h
      · exact h ▸ hs3
      · exact hr3 x h
    · have hcp : matchCount (c :: cs) (p :: ps)
          = (if c = p then 1 else 0) + matchCount cs ps := by
        by_cases h : c = p
        · simp [matchCount, elementwise_eq, List.count_cons, h]
          omega
        · simp [matchCount, elementwise_eq, List.count_cons, h]
      have hcs : matchCount (c :: cs) (s :: rest)
          = (if c = s then 1 else 0) + matchCount cs rest := by
        by_cases h : c = s
        · simp [matchCount, elementwise_eq, List.count_cons, h]
          omega
        · simp [matchCount, elementwise_eq, List.count_cons, h]
      have hone : (if c = p then 1 else 0) + (if c = s then 1 else 0) = 1 := by
        by_cases h : c = p
        · have hns : ¬c = s := fun hcs' => (hiff.mp hcs') h
          rw [if_pos h, if_neg hns]
        · rw [if_neg h, if_pos (hiff.mpr h)]
      rw [hcp, hcs]
      simp only [List.length_cons]
      omega

/-- `value_counts()[True]` succeeds with the `True` count when it is
positive. -/
lemma value_counts_true_pos (bs : List Bool) (h : bs.count true ≠ 0) :
    value_counts_true bs = some (bs.count true) := by
  unfold value_counts_true
  rw [if_neg h]

/-- `value_counts()[True]` raises `KeyError` when the series has no `True`
entry. -/
lemma value_counts_true_zero (bs : List Bool) (h : bs.count true = 0) :
    value_counts_true bs = none := by
  unfold value_counts_true
  rw [if_pos h]

/-- The stay evaluation succeeds and equals match count over trial count
whenever at least one trial matched. -/
lemma approximate_P_staying_of_pos (car_under picked : List ℕ)
    (h : matchCount car_under picked ≠ 0) :
    approximate_P_staying car_under picked
      = some ((matchCount car_under picked : ℚ) / (car_under.length : ℚ)) := by
  unfold approximate_P_staying
  rw [value_counts_true_pos _ h]
  rfl

/-- The stay evaluation raises when no trial matched. -/
lemma approximate_P_staying_of_zero (car_under picked : List ℕ)
    (h : matchCount car_under picked = 0) :
    approximate_P_staying car_under picked = none := by
  unfold approximate_P_staying
  rw [value_counts_true_zero _ h]
  rfl

/-- The switch evaluation succeeds and equals switched-match count over
trial count whenever `apply_change_mind` succeeded and at least one
switched pick matched. -/
lemma approximate_P_switching_of_pos (car_under picked changed : List ℕ)
    (hch : apply_change_mind picked car_under = some changed)
    (h : matchCount car_under changed ≠ 0) :
    approximate_P_switching car_under picked
      = some ((matchCount car_under changed : ℚ) / (car_under.length : ℚ)) := by
  unfold approximate_P_switching
  rw [hch]
  show (do
    let num_times_we_got_the_car ← value_counts_true (elementwise_eq car_under changed)
    pure ((num_times_we_got_the_car : ℚ) / (car_under.length : ℚ)) : Option ℚ) = _
  rw [value_counts_true_pos _ h]
  rfl

/-- The switch evaluation raises when no switched pick matched. -/
lemma approximate_P_switching_of_zero (car_under picked changed : List ℕ)
    (hch : apply_change_mind picked car_under = some changed)
    (h : matchCount car_under changed = 0) :
    approximate_P_switching car_under picked = none := by
  unfold approximate_P_switching
  rw [hch]
  show (do
    let num_times_we_got_the_car ← value_counts_true (elementwise_eq car_under changed)
    pure ((num_times_we_got_the_car : ℚ) / (car_under.length : ℚ)) : Option ℚ) = _
  rw [value_counts_true_zero _ h]
  rfl

/-- On a one-trial input that matches, the stay evaluation returns
exactly `1`. -/
lemma staying_single_hit (c : ℕ) : approximate_P_staying [c] [c] = some 1 := by
  rw [approximate_P_staying_of_pos _ _ (by simp [matchCount, elementwise_eq])]
  simp [matchCount, elementwise_eq]

/-- On a one-trial input that does not match, the stay evaluation raises. -/
lemma staying_single_miss (c p : ℕ) (h : c ≠ p) :
    approximate_P_staying [c] [p] = none :=
  approximate_P_staying_of_zero _ _ (by simp [matchCount, elementwise_eq, h])

/-- On a one-trial input with the prize behind the picked door, the switch
evaluation raises: the one switched pick misses the prize. -/
lemma switching_single_tie (c : ℕ) (hc : c < 3) :
    approximate_P_switching [c] [c] = none := by
  obtain ⟨s, hs, hs3, hiff⟩ := change_mind_dichotomy c c hc hc
  have hne : c ≠ s := fun h => (hiff.mp h) rfl
  have hch : apply_change_mind [c] [c] = some [s] := by
    simp [apply_change_mind, hs]
  exact approximate_P_switching_of_zero _ _ _ hch
    (by simp [matchCount, elementwise_eq, hne])

/-- On a one-trial input with the prize not behind the picked door, the
switch evaluation returns exactly `1`. -/
lemma switching_single_hit (c p : ℕ) (hc : c < 3) (hp : p < 3) (h : c ≠ p) :
    approximate_P_switching [c] [p] = some 1 := by
  have hcm : change_mind p c = some c := by
    rw [change_mind_closed p c hp hc, if_neg h]
  have hch : apply_change_mind [p] [c] = some [c] := by
    simp [apply_change_mind, hcm]
  rw [approximate_P_switching_of_pos _ _ _ hch
    (by simp [matchCount, elementwise_eq])]
  simp [matchCount, elementwise_eq]

/-- C1: For every pair `(initial_pick, prize_door)` in `{0,1,2} × {0,1,2}`
with `prize_door ≠ initial_pick`, `change_mind` returns the prize door. -/
theorem change_mind_returns_prize (p c : ℕ) (hp : p < 3) (hc : c < 3)
    (hne : c ≠ p) : change_mind p c = some c := by
  rw [change_mind_closed p c hp hc, if_neg hne]

theorem change_mind_returns_prize_witness : change_mind 0 1 = some 1 :=
  change_mind_returns_prize 0 1 (by decide) (by decide) (by decide)

/-- C2: For every trial on `{0,1,2} × {0,1,2}`, the switched pick, the
initial pick and the revealed goat door are pairwise distinct and together
are exactly the set `{0,1,2}`. -/
theorem trial_doors_partition (p c : ℕ) (hp : p < 3) (hc : c < 3) :
    ∃ s g, change_mind p c = some s ∧ revealed_goat p c = some g ∧
      s ≠ p ∧ s ≠ g ∧ g ≠ p ∧ ({p, g, s} : Finset ℕ) = {0, 1, 2} := by
  refine ⟨(change_mind p c).getD 0, (revealed_goat p c).getD 0, ?_⟩
  interval_cases p <;> interval_cases c <;> decide

theorem trial_doors_partition_witness :
    ∃ s g, change_mind 0 0 = some s ∧ revealed_goat 0 0 = some g ∧
      s ≠ 0 ∧ s ≠ g ∧ g ≠ 0 ∧ ({0, g, s} : Finset ℕ) = {0, 1, 2} :=
  trial_doors_partition 0 0 (by decide) (by decide)

/-- C3: `change_mind` is total on `{0,1,2} × {0,1,2}`: it returns `some`
door in `{0,1,2}`, so neither list removal nor any indexing inside it
raises. -/
theorem change_mind_total (p c : ℕ) (hp : p < 3) (hc : c < 3) :
    ∃ d, change_mind p c = some d ∧ d < 3 := by
  refine ⟨(change_mind p c).getD 0, ?_⟩
  interval_cases p <;> interval_cases c <;> decide

theorem change_mind_total_witness :
    ∃ d, change_mind 1 2 = some d ∧ d < 3 :=
  change_mind_total 1 2 (by decide) (by decide)

/-- C10: In the tie case `prize_door = initial_pick = p`, `change_mind`
returns the largest door of `{0,1,2} \ {p}`, and the door revealed (the
one eliminated) is the smallest door of `{0,1,2} \ {p}`. -/
theorem change_mind_tie_break (p : ℕ) (hp : p < 3) :
    ∃ s g, change_mind p p = some s ∧ revealed_goat p p = some g ∧
      s < 3 ∧ s ≠ p ∧ g < 3 ∧ g ≠ p ∧
      (∀ d, d < 3 → d ≠ p → d ≤ s) ∧ (∀ d, d < 3 → d ≠ p → g ≤ d) := by
  refine ⟨(change_mind p p).getD 0, (revealed_goat p p).getD 0, ?_⟩
  interval_cases p <;> decide

theorem change_mind_tie_break_witness :
    ∃ s g, change_mind 0 0 = some s ∧ revealed_goat 0 0 = some g ∧
      s < 3 ∧ s ≠ 0 ∧ g < 3 ∧ g ≠ 0 ∧
      (∀ d, d < 3 → d ≠ 0 → d ≤ s) ∧ (∀ d, d < 3 → d ≠ 0 → g ≤ d) :=
  change_mind_tie_break 0 (by decide)

/-- C4 counterexample: at `prize = [0]`, `pick = [1]` the claimed value is
`(0 matches) / 1 = 0`, but the stay evaluation raises `KeyError` inside
`value_counts()[True]` (no `True` row exists) and returns nothing. -/
theorem staying_keyerror_counterexample :
    approximate_P_staying [0] [1] = none ∧
      approximate_P_staying [0] [1] ≠ some 0 := by
  decide

/-- C4 (amended): for length-`N` sequences with `N > 0` in which at least
one trial matches, the stay evaluation returns exactly
(number of positions where prize equals pick) / `N`. -/
theorem approximate_P_staying_exact (car_under picked : List ℕ)
    (hlen : picked.length = car_under.length) (hN : 0 < car_under.length)
    (hpos : 0 < matchCount car_under picked) :
    approximate_P_staying car_under picked
      = some ((matchCount car_under picked : ℚ) / (car_under.length : ℚ)) :=
  approximate_P_staying_of_pos car_under picked (by omega)

theorem approximate_P_staying_exact_witness :
    approximate_P_staying [0, 1] [0, 2]
      = some ((matchCount [0, 1] [0, 2] : ℚ) / (([0, 1] : List ℕ).length : ℚ)) :=
  approximate_P_staying_exact [0, 1] [0, 2] rfl (by decide) (by decide)

/-- C5 counterexample: at `prize = [0]`, `pick = [0]` the switched pick
sequence is `[2]`, the claimed value is `(0 matches) / 1 = 0`, but the
switch evaluation raises `KeyError` and returns nothing. -/
theorem switching_keyerror_counterexample :
    apply_change_mind [0] [0] = some [2] ∧
      approximate_P_switching [0] [0] = none ∧
      approximate_P_switching [0] [0] ≠ some 0 := by
  decide

/-- C5 (amended): for length-`N` sequences over `{0,1,2}` with `N > 0` in
which at least one trial has `pick ≠ prize`, the switch evaluation maps
`change_mind` over every trial to obtain the switched picks and returns
exactly (number of positions where switched pick equals prize) / `N`. -/
theorem approximate_P_switching_exact (car_under picked : List ℕ)
    (hcar : ∀ x ∈ car_under, x < 3) (hpick : ∀ x ∈ picked, x < 3)
    (hlen : picked.length = car_under.length)
    (hmiss : matchCount car_under picked < car_under.length) :
    ∃ changed, apply_change_mind picked car_under = some changed ∧
      approximate_P_switching car_under picked
        = some ((matchCount car_under changed : ℚ) / (car_under.length : ℚ)) := by
  obtain ⟨changed, hch, _, _, hsum⟩ :=
    apply_change_mind_spec car_under picked hcar hpick hlen
  exact ⟨changed, hch, approximate_P_switching_of_pos _ _ _ hch (by omega)⟩

theorem approximate_P_switching_exact_witness :
    ∃ changed, apply_change_mind [0, 2] [0, 1] = some changed ∧
      approximate_P_switching [0, 1] [0, 2]
        = some ((matchCount [0, 1] changed : ℚ) / (([0, 1] : List ℕ).length : ℚ)) :=
  approximate_P_switching_exact [0, 1] [0, 2] (by decide) (by decide) rfl (by decide)

/-- C6 counterexample: at `prize = [1]`, `pick = [2]` (both over `{0,1,2}`,
`N = 1 > 0`) the stay evaluation raises `KeyError`, so the whole
computation does not complete without error. -/
theorem totality_counterexample :
    approximate_P_staying [1] [2] = none ∧
      ¬((approximate_P_staying [1] [2]).isSome
        ∧ (approximate_P_switching [1] [2]).isSome) := by
  decide

/-- C6 (amended): the per-trial switch resolution never fails on
`{0,1,2}`-valued inputs; the only failure point is the final
`value_counts()[True]` lookup of each evaluation, so the whole computation
completes without error exactly when at least one trial has
`pick = prize` and at least one trial has `pick ≠ prize`. -/
theorem evaluations_total_iff (car_under picked : List ℕ)
    (hcar : ∀ x ∈ car_under, x < 3) (hpick : ∀ x ∈ picked, x < 3)
    (hlen : picked.length = car_under.length) (hN : 0 < car_under.length) :
    ((approximate_P_staying car_under picked).isSome
        ∧ (approximate_P_switching car_under picked).isSome) ↔
      (0 < matchCount car_under picked
        ∧ matchCount car_under picked < car_under.length) := by
  obtain ⟨changed, hch, _, _, hsum⟩ :=
    apply_change_mind_spec car_under picked hcar hpick hlen
  constructor
  · rintro ⟨h1, h2⟩
    refine ⟨?_, ?_⟩
    · by_contra h
      rw [approximate_P_staying_of_zero _ _ (by omega)] at h1
      simp at h1
    · by_contra h
      rw [approximate_P_switching_of_zero _ _ _ hch (by omega)] at h2
      simp at h2
  · rintro ⟨h1, h2⟩
    constructor
    · rw [approximate_P_staying_of_pos _ _ (by omega)]
      rfl
    · rw [approximate_P_switching_of_pos _ _ _ hch (by omega)]
      rfl

theorem evaluations_total_iff_witness :
    (approximate_P_staying [0, 1] [0, 2]).isSome
      ∧ (approximate_P_switching [0, 1] [0, 2]).isSome :=
  (evaluations_total_iff [0, 1] [0, 2] (by decide) (by decide) rfl
    (by decide)).mpr (by decide)

/-- C7: the concrete scenario `N = 3`, `prize = [0,1,2]`, `pick = [0,0,0]`:
one stay match giving `p_stay = 1/3`; switched picks `[2,1,2]`, all
nonzero, giving two switch matches and `p_switch = 2/3`. -/
theorem concrete_scenario :
    approximate_P_staying [0, 1, 2] [0, 0, 0] = some (1 / 3 : ℚ) ∧
      apply_change_mind [0, 0, 0] [0, 1, 2] = some [2, 1, 2] ∧
      (∀ x ∈ ([2, 1, 2] : List ℕ), x ≠ 0) ∧
      matchCount [0, 1, 2] [0, 0, 0] = 1 ∧
      matchCount [0, 1, 2] [2, 1, 2] = 2 ∧
      approximate_P_switching [0, 1, 2] [0, 0, 0] = some (2 / 3 : ℚ) := by
  refine ⟨?_, by decide, by decide, by decide, by decide, ?_⟩
  · rw [approximate_P_staying_of_pos _ _ (by decide),
      show matchCount [0, 1, 2] [0, 0, 0] = 1 from by decide]
    norm_num
  · rw [approximate_P_switching_of_pos _ _ [2, 1, 2] (by decide) (by decide),
      show matchCount [0, 1, 2] [2, 1, 2] = 2 from by decide]
    norm_num

/-- C8 counterexample: at `prize = [0]`, `pick = [1]` (`N = 1`) the stay
evaluation yields neither `0` nor `1`: it raises `KeyError` and produces
no value at all. -/
theorem n1_counterexample :
    ¬(approximate_P_staying [0] [1] = some 0
      ∨ approximate_P_staying [0] [1] = some 1) := by
  decide

/-- C8 (amended): for `N = 1` and any single trial over `{0,1,2}`, each
evaluation either raises (when its match count is `0`) or returns exactly
`1`; no fractional value and no `0` is ever produced, and for every such
trial at least one of the two evaluations does produce a value. -/
theorem n1_no_fraction (c p : ℕ) (hc : c < 3) (hp : p < 3) :
    (approximate_P_staying [c] [p] = none
        ∨ approximate_P_staying [c] [p] = some 1) ∧
      (approximate_P_switching [c] [p] = none
        ∨ approximate_P_switching [c] [p] = some 1) ∧
      ((approximate_P_staying [c] [p]).isSome
        ∨ (approximate_P_switching [c] [p]).isSome) := by
  by_cases h : c = p
  · subst h
    refine ⟨Or.inr (staying_single_hit c), Or.inl (switching_single_tie c hc), Or.inl ?_⟩
    rw [staying_single_hit c]
    rfl
  · refine ⟨Or.inl (staying_single_miss c p h),
      Or.inr (switching_single_hit c p hc hp h), Or.inr ?_⟩
    rw [switching_single_hit c p hc hp h]
    rfl

theorem n1_no_fraction_witness :
    (approximate_P_staying [0] [0] = none
        ∨ approximate_P_staying [0] [0] = some 1) ∧
      (approximate_P_switching [0] [0] = none
        ∨ approximate_P_switching [0] [0] = some 1) ∧
      ((approximate_P_staying [0] [0]).isSome
        ∨ (approximate_P_switching [0] [0]).isSome) :=
  n1_no_fraction 0 0 (by decide) (by decide)

/-- C9: over the same `{0,1,2}`-valued sequences, the stay-match count and
the switch-match count partition the `N` trials, so the two empirical
probabilities satisfy `p_stay = 1 - p_switch` exactly. -/
theorem stay_switch_complement (car_under picked : List ℕ)
    (hcar : ∀ x ∈ car_under, x < 3) (hpick : ∀ x ∈ picked, x < 3)
    (hlen : picked.length = car_under.length) (hN : 0 < car_under.length) :
    ∃ changed, apply_change_mind picked car_under = some changed ∧
      matchCount car_under picked + matchCount car_under changed
        = car_under.length ∧
      (matchCount car_under picked : ℚ) / (car_under.length : ℚ)
        = 1 - (matchCount car_under changed : ℚ) / (car_under.length : ℚ) := by
  obtain ⟨changed, hch, _, _, hsum⟩ :=
    apply_change_mind_spec car_under picked hcar hpick hlen
  refine ⟨changed, hch, hsum, ?_⟩
  have hcast : (matchCount car_under picked : ℚ)
      + (matchCount car_under changed : ℚ) = (car_under.length : ℚ) := by
    exact_mod_cast congrArg (Nat.cast (R := ℚ)) hsum
  have hN' : ((car_under.length : ℚ)) ≠ 0 :=
    Nat.cast_ne_zero.mpr (Nat.pos_iff_ne_zero.mp hN)
  field_simp
  linarith

theorem stay_switch_complement_witness :
    ∃ changed, apply_change_mind [1, 1] [1, 2] = some changed ∧
      matchCount [1, 2] [1, 1] + matchCount [1, 2] changed
        = ([1, 2] : List ℕ).length ∧
      (matchCount [1, 2] [1, 1] : ℚ) / (([1, 2] : List ℕ).length : ℚ)
        = 1 - (matchCount [1, 2] changed : ℚ) / (([1, 2] : List ℕ).length : ℚ) :=
  stay_switch_complement [1, 2] [1, 1] (by decide) (by decide) rfl (by decide)
